import Mathlib

/-!
Verification of the record-store contract of `src/streamlit_app.py`.

The application is a single-page health tracker: a sidebar form submits one
record per calendar date to a `health_data` table (Supabase `upsert` keyed on
`date`), a delete control removes one date, `load_data` reads the whole table
ordered by date, and the main panel renders summary statistics and a CSV
export of the loaded frame.

Embedding choices:
* A calendar date is embedded as a `Nat` ordinal (e.g. `20240101`); the ISO
  rendering of a date is abstracted as `toString`.
* The backing `health_data` table is a `List HealthRecord`.  The table-side
  semantics of `upsert` (replace the row with the same `date` key, else
  insert), of `delete().eq("date", d)` and of `select("*").order("date")`
  are not in the Python source (they are executed by the storage backend);
  those operations are modelled from the spec, as marked on each definition.
* `number_input` values are modelled as domain-clamped to the widget range,
  following the spec's "domain-clamped" reading of the form surface.
* Pandas `DataFrame` values are modelled as the underlying row list; the
  renaming to display column names and `to_csv` are embedded directly from
  the source (`df_disp`, lines 71-77 and 145).
-/

/-- One row of the `health_data` table: the record collected by the sidebar
form (date, exercise minutes, sleep hours, mood label, free-text memo). -/
structure HealthRecord where
  date : Nat
  exercise : Int
  sleep : Rat
  mood : String
  memo : String
deriving DecidableEq

/-- Ascending-by-date comparison used by the `order("date")` clause of
`load_data` (src/streamlit_app.py line 22). -/
def byDate (a b : HealthRecord) : Prop := a.date ≤ b.date

instance : DecidableRel byDate := fun a b => Nat.decLe a.date b.date

instance : IsTotal HealthRecord byDate := ⟨fun a b => Nat.le_total a.date b.date⟩

instance : IsTrans HealthRecord byDate := ⟨fun _ _ _ h h2 => Nat.le_trans h h2⟩

/-- Modelled from the spec: the stored collection materialized as a sequence
ordered ascending by date — the result of
`supabase.table("health_data").select("*").order("date")`
(src/streamlit_app.py line 22; the sort itself runs on the storage backend). -/
def loadAll (s : List HealthRecord) : List HealthRecord :=
  List.insertionSort byDate s

/-- `load_data` (src/streamlit_app.py lines 21-28): when the backing table is
missing (`none`) or the query result is empty, return the empty frame;
otherwise the rows ordered by date. -/
def load_data (backing : Option (List HealthRecord)) : List HealthRecord :=
  match backing with
  | none => []
  | some rows => loadAll rows

/-- Modelled from the spec: `upsert` keyed on `date` — "remove any existing
record with this date, then insert"
(src/streamlit_app.py lines 54-61 issue the call; the key semantics live in
the `health_data` table definition, which is not in the repository). -/
def upsert (r : HealthRecord) (s : List HealthRecord) : List HealthRecord :=
  (s.filter fun x => decide (x.date ≠ r.date)) ++ [r]

/-- Modelled from the spec: `delete().eq("date", d)` removes every row whose
date equals `d`; a no-op when none matches
(src/streamlit_app.py lines 134-137 issue the call). -/
def deleteByDate (d : Nat) (s : List HealthRecord) : List HealthRecord :=
  s.filter fun x => decide (x.date ≠ d)

/-- A sequence of form submissions applied left to right. -/
def applyUpserts (s : List HealthRecord) (rs : List HealthRecord) : List HealthRecord :=
  rs.foldl (fun acc r => upsert r acc) s

/-- The three KPI values of the summary panel. -/
structure Summary where
  averageSleepHours : Rat
  totalExerciseMinutes : Int
  mostRecentMood : String
deriving DecidableEq

/-- The summary computation of the main panel (src/streamlit_app.py lines
80-93): mean of the sleep column, sum of the exercise column, and the mood of
the last row (`iloc[-1]`) of the date-ordered frame. -/
def summarize (rs : List HealthRecord) : Summary :=
  { averageSleepHours := (rs.map (·.sleep)).sum / (rs.length : Rat)
    totalExerciseMinutes := (rs.map (·.exercise)).sum
    mostRecentMood := ((rs.getLast?).map (·.mood)).getD "" }

/-- The display guard of the main panel (src/streamlit_app.py line 69):
the summary (with charts, table, delete control and export) is rendered only
when the loaded frame is non-empty, else the prompt is shown (line 154). -/
def renderSummary (rs : List HealthRecord) : Option Summary :=
  if rs.isEmpty then none else some (summarize rs)

/-- Modelled from the spec: an integer `number_input` widget holds a value
domain-clamped to `[lo, hi]` (src/streamlit_app.py lines 45-47 set
`min_value=0, max_value=300`). -/
def numberInputInt (lo hi x : Int) : Int := max lo (min hi x)

/-- Modelled from the spec: a decimal `number_input` widget holds a value
domain-clamped to `[lo, hi]` (src/streamlit_app.py lines 48-50 set
`min_value=0.0, max_value=24.0`). -/
def numberInputRat (lo hi x : Rat) : Rat := max lo (min hi x)

/-- The record the sidebar form submits on "記録を追加する"
(src/streamlit_app.py lines 44-61): the widget values with their ranges. -/
def formRecord (d : Nat) (ex : Int) (sl : Rat) (mood memo : String) : HealthRecord :=
  { date := d
    exercise := numberInputInt 0 300 ex
    sleep := numberInputRat 0 24 sl
    mood := mood
    memo := memo }

/-- The field ranges of the data model: exercise minutes in [0, 300], sleep
hours in [0, 24]. -/
def validRecord (r : HealthRecord) : Prop :=
  0 ≤ r.exercise ∧ r.exercise ≤ 300 ∧ 0 ≤ r.sleep ∧ r.sleep ≤ 24

/-- The header row `to_csv` writes for `df_disp`: the display column names
after the rename of src/streamlit_app.py lines 71-77. -/
def headerJa : String := "日付,運動時間(分),睡眠時間(時間),気分,メモ"

/-- One CSV data row of `df_disp.to_csv(index=False)`: the five fields of a
record, comma-separated, in column order. -/
def renderRow (r : HealthRecord) : String :=
  toString r.date ++ "," ++ toString r.exercise ++ "," ++ toString r.sleep
    ++ "," ++ r.mood ++ "," ++ r.memo

/-- The lines of the CSV export (src/streamlit_app.py line 145): the header
row followed by one row per record of the loaded frame, in frame order. -/
def csvLines (rs : List HealthRecord) : List String :=
  headerJa :: rs.map renderRow

/-- The CSV artifact offered by the download button (src/streamlit_app.py
lines 145-151). -/
def csvExport (rs : List HealthRecord) : String :=
  String.intercalate "\n" (csvLines rs)

/-- Descending sort of the date column,
`sort_values(ascending=False)` (src/streamlit_app.py line 124). -/
def sortDesc (l : List Nat) : List Nat :=
  (List.insertionSort (fun a b => a ≤ b) l).reverse

/-- The option list of the deletion selectbox (src/streamlit_app.py lines
122-127): the date column sorted descending with duplicates removed
(`.unique()`); the `astype(str)` rendering is abstracted away, options are
kept at the date level. -/
def dateOptions (rs : List HealthRecord) : List Nat :=
  (sortDesc (rs.map (·.date))).dedup

/-- Scenario record of 2024-01-01 from the spec's test scenario. -/
def rec1 : HealthRecord := ⟨20240101, 30, 7, "🙂 普通", ""⟩

/-- Scenario record of 2024-01-02 from the spec's test scenario. -/
def rec2 : HealthRecord := ⟨20240102, 45, 13/2, "😊 最高", "ran"⟩

/-- The store after the spec's scenario: upsert rec1 then rec2 on an empty
store. -/
def scenarioStore : List HealthRecord := upsert rec2 (upsert rec1 [])

/-- Same-date pair for the last-write-wins witness. -/
def recA : HealthRecord := ⟨20240105, 10, 5, "😫 疲れた", "first"⟩

/-- Same-date pair for the last-write-wins witness: same date as recA, every
other field different. -/
def recB : HealthRecord := ⟨20240105, 0, 8, "😊 最高", "second"⟩

/-- C2: for every store state — hence after any sequence of upserts and
deletes, in whatever order the records were inserted — `loadAll` returns the
collection as a sequence sorted ascending by date. -/
theorem loadAll_sorted_by_date (s : List HealthRecord) :
    (loadAll s).Sorted byDate :=
  List.sorted_insertionSort byDate s

/-- C5: when no backing data exists (first run, `none`) or the query result
is empty, `loadAll` via `load_data` is the empty sequence, not a failure. -/
theorem load_data_missing_backing_is_empty :
    load_data none = [] ∧ load_data (some []) = [] :=
  ⟨rfl, rfl⟩

/-- C8: the display layer never applies `summarize` to an empty sequence —
an empty loaded frame suppresses the summary panel, and it is rendered
exactly when the frame is non-empty. -/
theorem renderSummary_skips_empty :
    renderSummary ([] : List HealthRecord) = none ∧
    ∀ rs : List HealthRecord, rs ≠ [] → renderSummary rs = some (summarize rs) := by
  refine ⟨rfl, fun rs h => ?_⟩
  simp [renderSummary, List.isEmpty_iff, h]

/-- Witness for C8 at the one-record store. -/
theorem renderSummary_skips_empty_witness :
    renderSummary [rec1] = some (summarize [rec1]) :=
  renderSummary_skips_empty.2 [rec1] (by simp)

/-- C3: for a non-empty sequence the average is mean of the sleep column
(average times length equals the sum), and on the spec's scenario the loaded
store is the two records in date order with averageSleepHours = 27/4 = 6.75,
totalExerciseMinutes = 75 and mostRecentMood the mood of the chronologically
last record. -/
theorem summarize_scenario :
    (∀ rs : List HealthRecord, rs ≠ [] →
      (summarize rs).averageSleepHours * (rs.length : Rat) = (rs.map (·.sleep)).sum) ∧
    loadAll scenarioStore = [rec1, rec2] ∧
    summarize (loadAll scenarioStore) =
      { averageSleepHours := 27/4
        totalExerciseMinutes := 75
        mostRecentMood := "😊 最高" } := by
  refine ⟨fun rs h => ?_, rfl, ?_⟩
  · have hlen : (rs.length : Rat) ≠ 0 := by
      have h0 : rs.length ≠ 0 := by
        simp only [ne_eq, List.length_eq_zero]
        exact h
      exact_mod_cast h0
    simp only [summarize]
    rw [div_mul_cancel₀ _ hlen]
  · show summarize [rec1, rec2] = _
    simp only [summarize, Summary.mk.injEq, rec1, rec2, List.map_cons, List.map_nil,
      List.sum_cons, List.sum_nil, List.length_cons, List.length_nil, List.getLast?_cons,
      List.getLast?_singleton, Option.map_some, Option.getD_some]
    norm_num

/-- Witness for C3 at the one-record store. -/
theorem summarize_scenario_witness :
    (summarize [rec1]).averageSleepHours * (([rec1] : List HealthRecord).length : Rat)
      = (([rec1] : List HealthRecord).map (·.sleep)).sum :=
  summarize_scenario.1 [rec1] (by simp)

/-- Helper: two upserts with the same date collapse to one filtered append.
Shared by the last-write-wins proof. -/
theorem upsert_upsert_same_date (s : List HealthRecord) (r1 r2 : HealthRecord)
    (h : r1.date = r2.date) :
    upsert r2 (upsert r1 s) = (s.filter fun x => decide (x.date ≠ r2.date)) ++ [r2] := by
  simp only [upsert, List.filter_append, List.filter_filter, h]
  have hr1 : (decide (r1.date ≠ r2.date)) = false := by simp [h]
  simp [List.filter_cons, hr1, Bool.and_self, h]

/-- C1: after two upserts with the same date, the loaded collection holds
exactly one record for that date (the filter by that date is the singleton
of the second record, equal to it in every field — full replace,
last-write-wins), and the at-most-one-record-per-date invariant is
preserved. -/
theorem upsert_last_write_wins (s : List HealthRecord) (r1 r2 : HealthRecord)
    (h : r1.date = r2.date) :
    ((loadAll (upsert r2 (upsert r1 s))).filter fun x => decide (x.date = r2.date)) = [r2] ∧
    ((s.map (·.date)).Nodup →
      ((loadAll (upsert r2 (upsert r1 s))).map (·.date)).Nodup) := by
  have hperm : List.Perm (loadAll (upsert r2 (upsert r1 s))) (upsert r2 (upsert r1 s)) :=
    List.perm_insertionSort byDate _
  have heq := upsert_upsert_same_date s r1 r2 h
  constructor
  · have hp : List.Perm
        ((loadAll (upsert r2 (upsert r1 s))).filter fun x => decide (x.date = r2.date))
        ((upsert r2 (upsert r1 s)).filter fun x => decide (x.date = r2.date)) :=
      hperm.filter _
    have hrhs : ((upsert r2 (upsert r1 s)).filter fun x => decide (x.date = r2.date)) = [r2] := by
      rw [heq, List.filter_append, List.filter_filter]
      have h1 : (s.filter fun a => decide (a.date = r2.date) && decide (a.date ≠ r2.date)) = [] := by
        apply List.filter_eq_nil_iff.mpr
        intro a _
        by_cases hc : a.date = r2.date <;> simp [hc]
      have h2 : ([r2].filter fun x => decide (x.date = r2.date)) = [r2] := by simp
      rw [h1, h2, List.nil_append]
    rw [hrhs] at hp
    exact List.perm_singleton.mp hp
  · intro hnd
    have hpm : List.Perm ((loadAll (upsert r2 (upsert r1 s))).map (·.date))
        ((upsert r2 (upsert r1 s)).map (·.date)) := hperm.map _
    rw [hpm.nodup_iff, heq]
    rw [List.map_append]
    simp only [List.map_cons, List.map_nil]
    have hsub : ((s.filter fun x => decide (x.date ≠ r2.date)).map (·.date)).Sublist
        (s.map (·.date)) := (List.filter_sublist s).map _
    refine List.Nodup.append (hnd.sublist hsub) (List.nodup_singleton _) ?_
    intro a ha hb
    simp only [List.mem_singleton] at hb
    subst hb
    rcases List.mem_map.mp ha with ⟨x, hx, hxd⟩
    have := (List.mem_filter.mp hx).2
    simp only [decide_eq_true_eq] at this
    exact this hxd

/-- Witness for C1: recB overwrites recA (same date) on the empty store. -/
theorem upsert_last_write_wins_witness :
    ((loadAll (upsert recB (upsert recA []))).filter fun x => decide (x.date = recB.date)) = [recB] ∧
    ((([] : List HealthRecord).map (·.date)).Nodup →
      ((loadAll (upsert recB (upsert recA []))).map (·.date)).Nodup) :=
  upsert_last_write_wins [] recA recB rfl

/-- C4: after `deleteByDate d` no loaded record carries date `d`; deleting
twice equals deleting once; and when no record with date `d` exists the
delete is a no-op that leaves the collection unchanged (and, being a total
function, raises no error). -/
theorem deleteByDate_removes_and_is_idempotent (s : List HealthRecord) (d : Nat) :
    (∀ r ∈ loadAll (deleteByDate d s), r.date ≠ d) ∧
    deleteByDate d (deleteByDate d s) = deleteByDate d s ∧
    ((∀ r ∈ s, r.date ≠ d) → deleteByDate d s = s) := by
  refine ⟨fun r hr => ?_, ?_, fun hnone => ?_⟩
  · have hmem : r ∈ deleteByDate d s :=
      ((List.perm_insertionSort byDate _).mem_iff).mp hr
    have := (List.mem_filter.mp hmem).2
    simpa using this
  · simp [deleteByDate, List.filter_filter, Bool.and_self]
  · apply List.filter_eq_self.mpr
    intro a ha
    simpa using hnone a ha

/-- Witness for C4: deleting the absent date 2024-01-03 from the two-record
scenario store leaves it unchanged (the spec's scenario). -/
theorem deleteByDate_noop_witness :
    deleteByDate 20240103 (loadAll scenarioStore) = loadAll scenarioStore :=
  (deleteByDate_removes_and_is_idempotent (loadAll scenarioStore) 20240103).2.2
    (by decide)

/-- Helper: a run of upserts with pairwise-distinct dates equals the store
filtered of those dates followed by the run, in submission order. -/
theorem applyUpserts_eq_filter_append (rs : List HealthRecord) :
    ∀ s : List HealthRecord, (rs.map (·.date)).Nodup →
    applyUpserts s rs = (s.filter fun x => decide (x.date ∉ rs.map (·.date))) ++ rs := by
  induction rs with
  | nil =>
    intro s _
    simp [applyUpserts]
  | cons r rs ih =>
    intro s hnd
    simp only [List.map_cons, List.nodup_cons] at hnd
    have step : applyUpserts s (r :: rs) = applyUpserts (upsert r s) rs := rfl
    rw [step, ih (upsert r s) hnd.2]
    have hPr : (decide (r.date ∉ rs.map (·.date))) = true := by simp [hnd.1]
    simp only [upsert, List.filter_append, List.filter_filter]
    have hQ : (s.filter fun a =>
          decide (a.date ∉ rs.map (·.date)) && decide (a.date ≠ r.date))
        = s.filter fun x => decide (x.date ∉ (r :: rs).map (·.date)) := by
      apply List.filter_congr
      intro a _
      by_cases h1 : a.date = r.date <;> by_cases h2 : a.date ∈ rs.map (·.date) <;>
        simp [h1, h2]
    have hfr : ([r].filter fun x => decide (x.date ∉ rs.map (·.date))) = [r] := by
      rw [List.filter_cons, hPr]
      simp
    rw [hQ, hfr, List.append_assoc, List.singleton_append]

/-- C6: for upsert runs over pairwise-distinct dates, any order of submission
yields the same final collection content (the results are permutations of
one another; display order is then fixed by the date sort of loadAll). -/
theorem applyUpserts_comm_distinct_dates (s rs1 rs2 : List HealthRecord)
    (hperm : List.Perm rs1 rs2) (hnd : (rs1.map (·.date)).Nodup) :
    List.Perm (applyUpserts s rs1) (applyUpserts s rs2) := by
  have hnd2 : (rs2.map (·.date)).Nodup := ((hperm.map (·.date)).nodup_iff).mp hnd
  rw [applyUpserts_eq_filter_append rs1 s hnd, applyUpserts_eq_filter_append rs2 s hnd2]
  have hf : (s.filter fun x => decide (x.date ∉ rs1.map (·.date)))
      = s.filter fun x => decide (x.date ∉ rs2.map (·.date)) := by
    apply List.filter_congr
    intro a _
    exact decide_eq_decide.mpr (not_congr (hperm.map (·.date)).mem_iff)
  rw [hf]
  exact List.Perm.append_left _ hperm

/-- Witness for C6: the two scenario records submitted in either order give
permutation-equal stores. -/
theorem applyUpserts_comm_witness :
    List.Perm (applyUpserts [] [rec1, rec2]) (applyUpserts [] [rec2, rec1]) :=
  applyUpserts_comm_distinct_dates [] [rec1, rec2] [rec2, rec1]
    (List.Perm.swap rec2 rec1 []) (by decide)

/-- C7 counterexample: on the concrete scenario store the export's header
row is the display header (the Japanese renamed column names), which is not
the persisted field-name row `date,exercise,sleep,mood,memo` the claim
states. -/
theorem csv_header_counterexample :
    (csvLines (loadAll scenarioStore)).head? = some headerJa ∧
    headerJa ≠ "date,exercise,sleep,mood,memo" := by
  exact ⟨rfl, by decide⟩

/-- C7 amended: the CSV export is the full ordered record sequence, one
comma-separated row per loaded record after the header row, whose header
matches the renamed display column names (日付,運動時間(分),睡眠時間(時間),気分,メモ)
rather than the persisted field names; on the scenario store the export is
exactly the header followed by the two records in date order. -/
theorem csv_export_matches_display_columns :
    (∀ s : List HealthRecord,
      (csvLines (loadAll s)).head? = some headerJa ∧
      (csvLines (loadAll s)).tail = (loadAll s).map renderRow) ∧
    csvLines (loadAll scenarioStore) = [headerJa, renderRow rec1, renderRow rec2] :=
  ⟨fun _ => ⟨rfl, rfl⟩, rfl⟩

/-- C9: every record the form submits has exercise minutes clamped into
[0, 300] and sleep hours clamped into [0, 24]; and upsert preserves
range-validity of every stored record, so a store built from form
submissions satisfies the ranges throughout. -/
theorem form_range_and_store_validity :
    (∀ (d : Nat) (ex : Int) (sl : Rat) (mood memo : String),
      validRecord (formRecord d ex sl mood memo)) ∧
    (∀ (s : List HealthRecord) (r : HealthRecord),
      (∀ x ∈ s, validRecord x) → validRecord r → ∀ x ∈ upsert r s, validRecord x) := by
  constructor
  · intro d ex sl mood memo
    refine ⟨le_max_left _ _, max_le (by norm_num) (min_le_left _ _),
      le_max_left _ _, max_le (by norm_num) (min_le_left _ _)⟩
  · intro s r hs hr x hx
    simp only [upsert, List.mem_append, List.mem_filter, List.mem_singleton] at hx
    rcases hx with ⟨hxs, _⟩ | hxr
    · exact hs x hxs
    · subst hxr
      exact hr

/-- Witness for C9: an out-of-range exercise input (999) is clamped and the
one-record store built from it is range-valid. -/
theorem form_range_and_store_validity_witness :
    validRecord (formRecord 20240106 999 30 "🙂 普通" "big") ∧
    ∀ x ∈ upsert (formRecord 20240106 999 30 "🙂 普通" "big") ([] : List HealthRecord),
      validRecord x :=
  ⟨form_range_and_store_validity.1 20240106 999 30 "🙂 普通" "big",
   form_range_and_store_validity.2 [] (formRecord 20240106 999 30 "🙂 普通" "big")
     (by simp) (form_range_and_store_validity.1 20240106 999 30 "🙂 普通" "big")⟩

/-- C10: the deletion selectbox offers exactly the distinct dates of the
loaded collection, in descending order with no duplicates; every offered
date belongs to an existing record, so a delete triggered through the UI
always removes something — the delete-of-nonexistent-key no-op branch is
unreachable from the interface. -/
theorem delete_options_exact_and_effective (s : List HealthRecord) :
    (dateOptions (loadAll s)).Sorted (fun a b : Nat => b ≤ a) ∧
    (dateOptions (loadAll s)).Nodup ∧
    (∀ d : Nat, d ∈ dateOptions (loadAll s) ↔ ∃ r ∈ loadAll s, r.date = d) ∧
    (∀ d ∈ dateOptions (loadAll s), deleteByDate d (loadAll s) ≠ loadAll s) := by
  have hmem : ∀ d : Nat, d ∈ dateOptions (loadAll s) ↔ d ∈ (loadAll s).map (·.date) := by
    intro d
    unfold dateOptions sortDesc
    rw [List.mem_dedup, List.mem_reverse]
    exact (List.perm_insertionSort _ _).mem_iff
  refine ⟨?_, List.nodup_dedup _, fun d => ?_, fun d hd heqq => ?_⟩
  · show List.Pairwise _ _
    refine List.Pairwise.sublist (List.dedup_sublist _) ?_
    unfold sortDesc
    rw [List.pairwise_reverse]
    exact List.sorted_insertionSort _ _
  · rw [hmem d]
    simp only [List.mem_map]
  · rcases List.mem_map.mp ((hmem d).mp hd) with ⟨r, hr, hrd⟩
    simp only [deleteByDate] at heqq
    have hall := List.filter_eq_self.mp heqq r hr
    rw [hrd] at hall
    simp at hall

/-- Witness for C10: on the scenario store the offered date 2024-01-02
really deletes. -/
theorem delete_options_witness :
    deleteByDate 20240102 (loadAll scenarioStore) ≠ loadAll scenarioStore :=
  (delete_options_exact_and_effective scenarioStore).2.2.2 20240102 (by decide)
